import Mathlib

/-!
Shallow embedding of the nano-banana MCP server (`main.go`).

The server reads newline-delimited JSON-RPC requests from standard input,
dispatches them (`initialize`, `notifications/initialized`, `tools/list`,
`tools/call`), runs one of two tools (`generate_image`, `edit_image`) backed
by a remote image-generation API, and prints one JSON-RPC response per
handled request on standard output.

Modelling decisions:
* JSON (un)marshalling of the request envelope is treated as an oracle
  `parse : String -> Option JSONRPCRequest`; the code only observes whether
  `json.Unmarshal` succeeded and the decoded fields.  `json.Marshal` of a
  response built by this server cannot fail in Go (every field holds a
  JSON-representable value), so serialisation is modelled as the identity.
* The outside world (Gemini API, filesystem, clock) is an explicit `Env`
  record of oracles, and every side effect the code performs is recorded in
  an effect trace.
* Go runtime panics (out-of-range indexing) are modelled by the `.panic`
  constructor of `GoResult`.
* Machine integers do not occur on any path modelled here; byte values are
  `Nat` reduced mod 256 where they are produced.
-/

namespace NanoBanana

/-! ### Strings: substring test (Go strings.Contains) -/

/-- Whether the first list is an initial segment of the second. -/
def charsStart : List Char → List Char → Bool
  | [], _ => true
  | _ :: _, [] => false
  | a :: as, b :: bs => a = b && charsStart as bs

/-- Whether `sub` occurs contiguously inside the second list. -/
def charsHave (sub : List Char) : List Char → Bool
  | [] => sub.isEmpty
  | c :: rest => charsStart sub (c :: rest) || charsHave sub rest

/-- Go `strings.Contains s sub`: substring containment. -/
def strContains (s sub : String) : Bool :=
  charsHave sub.data s.data

/-! ### Go path/filepath functions (Unix rules)

`clean` is a purely functional rendering of Go `filepath.Clean`: split on
separators, drop empty and `.` components, resolve `..` against a stack
(dropping it at the root, keeping it at the front of a relative path), and
reassemble.  This is extensionally the lazybuf algorithm of the Go standard
library on Unix paths.
-/

/-- Split a character list at separators; `acc` holds the pending component
reversed.  Mirrors `strings.Split` on `/`. -/
def splitSlashAux : List Char → List Char → List String
  | acc, [] => [String.mk acc.reverse]
  | acc, c :: rest =>
    if c = '/' then String.mk acc.reverse :: splitSlashAux [] rest
    else splitSlashAux (c :: acc) rest

/-- Split a path into its `/`-separated fields. -/
def splitSlash (s : String) : List String := splitSlashAux [] s.data

/-- Whether the path begins with a separator. -/
def isRooted (s : String) : Bool :=
  match s.data with
  | '/' :: _ => true
  | _ => false

/-- Rejoin components with `/`. -/
def joinSlash : List String → String
  | [] => ""
  | [x] => x
  | x :: rest => x ++ "/" ++ joinSlash rest

/-- One step of `..` resolution.  The stack holds components in reverse. -/
def cleanStep (rooted : Bool) (stack : List String) (comp : String) : List String :=
  if comp = ".." then
    match stack with
    | top :: rest => if top = ".." then comp :: stack else rest
    | [] => if rooted then [] else [".."]
  else comp :: stack

/-- Go `filepath.Clean` on Unix paths. -/
def clean (path : String) : String :=
  if path = "" then "."
  else
    let rooted := isRooted path
    let comps := (splitSlash path).filter (fun c => c ≠ "" && c ≠ ".")
    let stack := comps.foldl (cleanStep rooted) []
    let body := joinSlash stack.reverse
    if rooted then "/" ++ body
    else if body = "" then "." else body

/-- Go `filepath.Join a b` (two-argument form used by the server). -/
def goJoin (a b : String) : String :=
  if a = "" then (if b = "" then "" else clean b)
  else clean (a ++ "/" ++ b)

/-- Helper for Go `filepath.Ext`: first argument is the already-restored
tail of the path, second is the remaining reversed characters; the extension
starts at the last dot of the final component. -/
def extRevAux : List Char → List Char → String
  | _, [] => ""
  | acc, c :: rest =>
    if c = '/' then ""
    else if c = '.' then String.mk ('.' :: acc)
    else extRevAux (c :: acc) rest

/-- Go `filepath.Ext path`. -/
def goExt (path : String) : String :=
  extRevAux [] path.data.reverse

/-- ASCII lowercasing of a single character; extensions compared by
`getMimeType` are ASCII, so this agrees with Go `strings.ToLower` there. -/
def lowerChar (c : Char) : Char :=
  match c with
  | 'A' => 'a' | 'B' => 'b' | 'C' => 'c' | 'D' => 'd' | 'E' => 'e'
  | 'F' => 'f' | 'G' => 'g' | 'H' => 'h' | 'I' => 'i' | 'J' => 'j'
  | 'K' => 'k' | 'L' => 'l' | 'M' => 'm' | 'N' => 'n' | 'O' => 'o'
  | 'P' => 'p' | 'Q' => 'q' | 'R' => 'r' | 'S' => 's' | 'T' => 't'
  | 'U' => 'u' | 'V' => 'v' | 'W' => 'w' | 'X' => 'x' | 'Y' => 'y'
  | 'Z' => 'z' | d => d

/-- Lowercase a string character by character. -/
def strLower (s : String) : String := String.mk (s.data.map lowerChar)

/-- `getMimeType` from main.go: map the lower-cased extension to a MIME type. -/
def getMimeType (path : String) : String :=
  let ext := strLower (goExt path)
  if ext = ".png" then "image/png"
  else if ext = ".jpg" then "image/jpeg"
  else if ext = ".jpeg" then "image/jpeg"
  else if ext = ".webp" then "image/webp"
  else if ext = ".gif" then "image/gif"
  else "image/png"

/-! ### Base64 (Go encoding/base64 StdEncoding)

Encoding is total; decoding returns `none` where Go returns a
`CorruptInputError` (invalid character, bad length, bad padding).  Following
the default, non-strict `StdEncoding`, nonzero trailing padding bits are
accepted.  The Go error message carries a byte offset; the model collapses
it to a fixed string, which no claim inspects.
-/

/-- The standard base64 alphabet. -/
def b64Chars : List Char :=
  "ABCDEFGHIJKLMNOPQRSTUVWXYZabcdefghijklmnopqrstuvwxyz0123456789+/".data

/-- Character for a 6-bit group. -/
def b64Char (n : Nat) : Char := b64Chars.getD (n % 64) 'A'

/-- Encode a byte list, three bytes to four characters, with padding. -/
def b64EncodeList : List Nat → List Char
  | [] => []
  | [a] =>
    let a := a % 256
    [b64Char (a / 4), b64Char (a % 4 * 16), '=', '=']
  | [a, b] =>
    let a := a % 256
    let b := b % 256
    [b64Char (a / 4), b64Char (a % 4 * 16 + b / 16), b64Char (b % 16 * 4), '=']
  | a :: b :: c :: rest =>
    let a := a % 256
    let b := b % 256
    let c := c % 256
    b64Char (a / 4) :: b64Char (a % 4 * 16 + b / 16) ::
      b64Char (b % 16 * 4 + c / 64) :: b64Char (c % 64) :: b64EncodeList rest

/-- Go `base64.StdEncoding.EncodeToString`. -/
def b64Encode (bytes : List Nat) : String := String.mk (b64EncodeList bytes)

/-- Index of a character in the base64 alphabet. -/
def b64IdxAux (c : Char) : List Char → Nat → Option Nat
  | [], _ => none
  | d :: rest, i => if d = c then some i else b64IdxAux c rest (i + 1)

/-- 6-bit value of an alphabet character, `none` for foreign characters. -/
def b64Index (c : Char) : Option Nat := b64IdxAux c b64Chars 0

/-- Decode four characters at a time; the final quad may carry padding. -/
def b64DecodeList : List Char → Option (List Nat)
  | [] => some []
  | [c1, c2, '=', '='] => do
    let n1 ← b64Index c1
    let n2 ← b64Index c2
    some [n1 * 4 + n2 / 16]
  | [c1, c2, c3, '='] => do
    let n1 ← b64Index c1
    let n2 ← b64Index c2
    let n3 ← b64Index c3
    some [n1 * 4 + n2 / 16, n2 % 16 * 16 + n3 / 4]
  | c1 :: c2 :: c3 :: c4 :: rest => do
    let n1 ← b64Index c1
    let n2 ← b64Index c2
    let n3 ← b64Index c3
    let n4 ← b64Index c4
    let tail ← b64DecodeList rest
    some ([n1 * 4 + n2 / 16, n2 % 16 * 16 + n3 / 4, n3 % 4 * 64 + n4] ++ tail)
  | _ => none

/-- Go `base64.StdEncoding.DecodeString`. -/
def b64Decode (s : String) : Option (List Nat) := b64DecodeList s.data

/-! ### JSON values and argument maps

A decoded Go `any` holding a JSON scalar.  Composite JSON values (arrays,
objects) never influence control flow in the server: the `id` is echoed
opaquely and a non-string argument fails the `.(string)` assertion whatever
it is, so they are collapsed into `vnull`-like scalars without loss.
-/

inductive GoVal where
  | vstr : String → GoVal
  | vnum : Int → GoVal
  | vbool : Bool → GoVal
  | vnull : GoVal
deriving DecidableEq, Repr

/-- A Go `map[string]any` of tool arguments, as an association list. -/
abbrev Args : Type := List (String × GoVal)

/-- Map lookup, `args[key]`. -/
def lookupArg : Args → String → Option GoVal
  | [], _ => none
  | (k, v) :: rest, key => if k = key then some v else lookupArg rest key

/-- The Go pattern `v, ok := args[key].(string)`: `some s` when the key is
present with a string value, `none` otherwise. -/
def argString (args : Args) (key : String) : Option String :=
  match lookupArg args key with
  | some (.vstr s) => some s
  | _ => none

/-! ### MCP JSON-RPC data model (types of main.go) -/

/-- The `Error` struct of main.go. -/
structure ErrorObj where
  code : Int
  message : String
deriving DecidableEq, Repr

/-- The `Content` struct; absent JSON fields are the empty string, as in Go. -/
structure Content where
  type : String
  text : String
  data : String
  mimeType : String
deriving DecidableEq, Repr

/-- The `CallToolResult` struct. -/
structure CallToolResult where
  content : List Content
  isError : Bool
deriving DecidableEq, Repr

/-- The `Property` struct of a JSON schema. -/
structure Property where
  type : String
  description : String
deriving DecidableEq, Repr

/-- The `JSONSchema` struct; the properties map is an association list. -/
structure JSONSchema where
  type : String
  properties : List (String × Property)
  required : List String
deriving DecidableEq, Repr

/-- The `Tool` struct. -/
structure Tool where
  name : String
  description : String
  inputSchema : JSONSchema
deriving DecidableEq, Repr

/-- The `InitializeResult` struct, with `Capabilities.Tools` presence as a
Bool and `ServerInfo` inlined. -/
structure InitializeResult where
  protocolVersion : String
  toolsCapability : Bool
  serverName : String
  serverVersion : String
deriving DecidableEq, Repr

/-- The possible values of the `Result any` field of a response. -/
inductive ResultVal where
  | initRes : InitializeResult → ResultVal
  | listRes : List Tool → ResultVal
  | callRes : CallToolResult → ResultVal
deriving DecidableEq, Repr

/-- The `CallToolParams` struct. -/
structure CallToolParams where
  name : String
  arguments : Args
deriving DecidableEq, Repr

/-- The `JSONRPCRequest` struct.  The raw `Params` bytes are observed only
through `json.Unmarshal` into `CallToolParams`, so they are carried as the
outcome of that unmarshal: `none` models a failed unmarshal. -/
structure JSONRPCRequest where
  jsonrpc : String
  id : GoVal
  method : String
  params : Option CallToolParams
deriving DecidableEq, Repr

/-- The `JSONRPCResponse` struct; `result`/`error` are `none` when unset. -/
structure JSONRPCResponse where
  jsonrpc : String
  id : GoVal
  result : Option ResultVal
  error : Option ErrorObj
deriving DecidableEq, Repr

/-- Constant `protocolVersion` of main.go. -/
def protocolVersion : String := "2024-11-05"

/-- Constant `serverName` of main.go. -/
def serverName : String := "nano-banana-mcp"

/-- Constant `serverVersion` of main.go. -/
def serverVersion : String := "2.0.0"

/-- Constant `defaultOutputDir` of main.go. -/
def defaultOutputDir : String := "generated"

/-! ### The external world: genai responses, filesystem, clock -/

/-- `genai.Blob`: MIME type and raw bytes. -/
structure Blob where
  mimeType : String
  data : List Nat
deriving DecidableEq, Repr

/-- `genai.Part`: text or inline data. -/
structure Part where
  text : String
  inlineData : Option Blob
deriving DecidableEq, Repr

/-- `genai.Content`: a list of parts. -/
structure GenContent where
  parts : List Part
deriving DecidableEq, Repr

/-- `genai.Candidate`: the content of one candidate. -/
structure Candidate where
  content : GenContent
deriving DecidableEq, Repr

/-- Outcome of a fallible external operation: Go `(value, error)`. -/
inductive ERes (α : Type) where
  | ok : α → ERes α
  | err : String → ERes α
deriving DecidableEq, Repr

/-- Result of running a piece of Go code: a value, a returned error, or a
runtime panic. -/
inductive GoResult (α : Type) where
  | ok : α → GoResult α
  | err : String → GoResult α
  | panic : GoResult α
deriving DecidableEq, Repr

/-- One observable side effect of the server. -/
inductive Effect where
  | readFile : String → Effect
  | apiCall : List Part → Effect
  | mkdirAll : String → Effect
  | writeFile : String → List Nat → Effect
deriving DecidableEq, Repr

/-- Oracles for everything outside the process: `os.ReadFile`, the Gemini
`GenerateContent` call, `os.MkdirAll`, `os.WriteFile`, the formatted
`time.Now()` timestamp, and `filepath.Abs`. -/
structure Env where
  readFileRes : String → ERes (List Nat)
  apiRes : ERes (List Candidate)
  mkdirErr : Option String
  writeErr : Option String
  timestamp : String
  absPathRes : String → ERes String

/-! ### Server operations -/

/-- The response-extraction loop of `generateImage`/`editImage` over the
parts of one candidate: text parts are concatenated, the last inline-data
part (when a part has no text) sets the base64 image.  The accumulator is
`(imageData, textResponse)`. -/
def extractStep (acc : String × String) (part : Part) : String × String :=
  if part.text ≠ "" then (acc.1, acc.2 ++ part.text)
  else
    match part.inlineData with
    | some blob => (b64Encode blob.data, acc.2)
    | none => acc

/-- Reading `result.Candidates[0].Content.Parts`: `none` models the Go
runtime panic (index out of range) when the candidate list is empty. -/
def extractFirst : List Candidate → Option (String × String)
  | [] => none
  | c :: _ => some (c.content.parts.foldl extractStep ("", ""))

/-- The `msg` construction of the no-image branch. -/
def noImageMsg (base txt : String) : String :=
  if txt = "" then base else base ++ "\n\nModel response: " ++ txt

/-- `Server.saveImage`: make the output directory, decode the base64 data,
write `<prefix>-<timestamp>.png`, and return the absolute path.  The second
component is the trace of attempted filesystem effects, in order. -/
def saveImage (outputDir base64Data pfx : String) (env : Env) :
    ERes String × List Effect :=
  let dir := goJoin "." outputDir
  match env.mkdirErr with
  | some e => (.err e, [.mkdirAll dir])
  | none =>
    let filename := pfx ++ "-" ++ env.timestamp ++ ".png"
    let filePath := goJoin dir filename
    match b64Decode base64Data with
    | none => (.err "illegal base64 data", [.mkdirAll dir])
    | some bytes =>
      match env.writeErr with
      | some e => (.err e, [.mkdirAll dir, .writeFile filePath bytes])
      | none =>
        match env.absPathRes filePath with
        | .err e =>
          (.err ("failed to get absolute path: " ++ e),
           [.mkdirAll dir, .writeFile filePath bytes])
        | .ok a => (.ok a, [.mkdirAll dir, .writeFile filePath bytes])

/-- `Server.generateImage`: validate the prompt, call the API with a single
text part (`genai.Text(prompt)`), extract the first candidate, and save any
returned image. -/
def generateImage (outputDir : String) (args : Args) (env : Env) :
    GoResult CallToolResult × List Effect :=
  match argString args "prompt" with
  | none => (.err "prompt is required", [])
  | some prompt =>
    if prompt = "" then (.err "prompt is required", [])
    else
      let callParts : List Part := [⟨prompt, none⟩]
      match env.apiRes with
      | .err e => (.err ("API request failed: " ++ e), [.apiCall callParts])
      | .ok cands =>
        match extractFirst cands with
        | none => (.panic, [.apiCall callParts])
        | some (imageData, textResponse) =>
          if imageData = "" then
            (.ok ⟨[⟨"text", noImageMsg "No image was generated." textResponse, "", ""⟩], false⟩,
             [.apiCall callParts])
          else
            match saveImage outputDir imageData "generated" env with
            | (.err e, tr) =>
              (.err ("failed to save image: " ++ e), .apiCall callParts :: tr)
            | (.ok filePath, tr) =>
              (.ok ⟨[⟨"text",
                      "Image generated and saved to: " ++ filePath ++ "\n\nPrompt: " ++ prompt,
                      "", ""⟩,
                     ⟨"image", "", imageData, "image/png"⟩], false⟩,
               .apiCall callParts :: tr)

/-- `Server.editImage`: validate `image_path` and `prompt`, clean the path
and reject it when the cleaned form still contains `..`, read the source
image, call the API with an inline-data part and a text part, extract the
first candidate, and save any returned image. -/
def editImage (outputDir : String) (args : Args) (env : Env) :
    GoResult CallToolResult × List Effect :=
  match argString args "image_path" with
  | none => (.err "image_path is required", [])
  | some imagePath =>
    if imagePath = "" then (.err "image_path is required", [])
    else
      match argString args "prompt" with
      | none => (.err "prompt is required", [])
      | some prompt =>
        if prompt = "" then (.err "prompt is required", [])
        else
          let cleanPath := clean imagePath
          if strContains cleanPath ".." then
            (.err "invalid image path: directory traversal not allowed", [])
          else
            match env.readFileRes cleanPath with
            | .err e => (.err ("failed to read image: " ++ e), [.readFile cleanPath])
            | .ok imageBytes =>
              let callParts : List Part :=
                [⟨"", some ⟨getMimeType cleanPath, imageBytes⟩⟩, ⟨prompt, none⟩]
              match env.apiRes with
              | .err e =>
                (.err ("API request failed: " ++ e),
                 [.readFile cleanPath, .apiCall callParts])
              | .ok cands =>
                match extractFirst cands with
                | none => (.panic, [.readFile cleanPath, .apiCall callParts])
                | some (imageData, textResponse) =>
                  if imageData = "" then
                    (.ok ⟨[⟨"text", noImageMsg "No edited image was generated." textResponse,
                            "", ""⟩], false⟩,
                     [.readFile cleanPath, .apiCall callParts])
                  else
                    match saveImage outputDir imageData "edited" env with
                    | (.err e, tr) =>
                      (.err ("failed to save image: " ++ e),
                       .readFile cleanPath :: .apiCall callParts :: tr)
                    | (.ok filePath, tr) =>
                      (.ok ⟨[⟨"text",
                              "Image edited and saved to: " ++ filePath ++
                                "\n\nOriginal: " ++ imagePath ++ "\nPrompt: " ++ prompt,
                              "", ""⟩,
                             ⟨"image", "", imageData, "image/png"⟩], false⟩,
                       .readFile cleanPath :: .apiCall callParts :: tr)

/-! ### Request handlers -/

/-- `Server.handleInitialize`. -/
def handleInitialize (req : JSONRPCRequest) : JSONRPCResponse :=
  ⟨"2.0", req.id,
   some (.initRes ⟨protocolVersion, true, serverName, serverVersion⟩), none⟩

/-- The tool list built by `Server.handleListTools`. -/
def toolsList : List Tool :=
  [⟨"generate_image",
    "Generate a new image from a text prompt using Google Gemini",
    ⟨"object",
     [("prompt", ⟨"string", "Text description of the image to generate"⟩)],
     ["prompt"]⟩⟩,
   ⟨"edit_image",
    "Edit an existing image using a text prompt",
    ⟨"object",
     [("image_path", ⟨"string", "Path to the image file to edit"⟩),
      ("prompt", ⟨"string", "Text description of the edits to make"⟩)],
     ["image_path", "prompt"]⟩⟩]

/-- `Server.handleListTools`. -/
def handleListTools (req : JSONRPCRequest) : JSONRPCResponse :=
  ⟨"2.0", req.id, some (.listRes toolsList), none⟩

/-- Packaging of a tool outcome by `Server.handleCallTool`: a returned error
becomes a `CallToolResult` with `IsError` set and a single text content
`Error: <message>`; a panic aborts the process. -/
def toolResponse (id : GoVal) : GoResult CallToolResult → GoResult JSONRPCResponse
  | .panic => .panic
  | .err e => .ok ⟨"2.0", id, some (.callRes ⟨[⟨"text", "Error: " ++ e, "", ""⟩], true⟩), none⟩
  | .ok r => .ok ⟨"2.0", id, some (.callRes r), none⟩

/-- `Server.handleCallTool`: unmarshal the params, switch on the tool name. -/
def handleCallTool (outputDir : String) (env : Env) (req : JSONRPCRequest) :
    GoResult JSONRPCResponse :=
  match req.params with
  | none => .ok ⟨"2.0", req.id, none, some ⟨-32602, "Invalid params"⟩⟩
  | some p =>
    if p.name = "generate_image" then
      toolResponse req.id (generateImage outputDir p.arguments env).1
    else if p.name = "edit_image" then
      toolResponse req.id (editImage outputDir p.arguments env).1
    else
      .ok ⟨"2.0", req.id, none, some ⟨-32601, "Unknown tool: " ++ p.name⟩⟩

/-- `Server.handleRequest`: the method switch.  `.ok none` is the `nil`
response returned for notifications. -/
def handleRequest (outputDir : String) (env : Env) (req : JSONRPCRequest) :
    GoResult (Option JSONRPCResponse) :=
  if req.method = "initialize" then .ok (some (handleInitialize req))
  else if req.method = "notifications/initialized" then .ok none
  else if req.method = "tools/list" then .ok (some (handleListTools req))
  else if req.method = "tools/call" then
    match handleCallTool outputDir env req with
    | .panic => .panic
    | .err e => .err e
    | .ok r => .ok (some r)
  else .ok (some ⟨"2.0", req.id, none, some ⟨-32601, "Method not found"⟩⟩)

/-! ### The read loop (`Server.Run`)

The scanner yields a list of input lines.  Parsing a line is the oracle
`parse`; the world seen by the k-th successfully parsed request is
`envs k`.  The output is the list of responses printed, in order; `.panic`
models a crash of the process (outputs already printed are not modelled on
that branch, the event trace below keeps them).
-/

/-- `Server.Run` over a list of stdin lines, accumulating printed responses. -/
def runLines (outputDir : String) (envs : Nat → Env)
    (parse : String → Option JSONRPCRequest) :
    List String → Nat → GoResult (List JSONRPCResponse)
  | [], _ => .ok []
  | line :: rest, k =>
    if line = "" then runLines outputDir envs parse rest k
    else
      match parse line with
      | none => runLines outputDir envs parse rest k
      | some req =>
        match handleRequest outputDir (envs k) req with
        | .panic => .panic
        | .err e => .err e
        | .ok none => runLines outputDir envs parse rest (k + 1)
        | .ok (some resp) =>
          match runLines outputDir envs parse rest (k + 1) with
          | .panic => .panic
          | .err e => .err e
          | .ok outs => .ok (resp :: outs)

/-! ### Spec-side view: replies per arriving request

`parsedReqs` is the sequence of requests that arrive (non-empty lines that
parse); `repliesOf` produces each of their replies in arrival order.  These
two definitions follow the wording of the spec sentence on replies and are
compared with `runLines` in the theorems.
-/

/-- The requests read from the input lines, in arrival order. -/
def parsedReqs (parse : String → Option JSONRPCRequest) (lines : List String) :
    List JSONRPCRequest :=
  lines.filterMap (fun l => if l = "" then none else parse l)

/-- The reply stream of a request sequence: each request contributes its
reply, in order; a request whose handler yields no response contributes
nothing. -/
def repliesOf (outputDir : String) (envs : Nat → Env) :
    List JSONRPCRequest → Nat → GoResult (List JSONRPCResponse)
  | [], _ => .ok []
  | r :: rs, k =>
    match handleRequest outputDir (envs k) r with
    | .panic => .panic
    | .err e => .err e
    | .ok none => repliesOf outputDir envs rs (k + 1)
    | .ok (some resp) =>
      match repliesOf outputDir envs rs (k + 1) with
      | .panic => .panic
      | .err e => .err e
      | .ok outs => .ok (resp :: outs)

/-! ### Event trace of the read loop (for the synchrony claim)

Each loop iteration reads a line; when the line yields a request the
handler runs to completion and the reply, if any, is printed, all before
the next line is read.  `runTrace` records these events; a panic truncates
the trace inside the handling of the offending request.
-/

/-- Observable events of the read loop. -/
inductive Event where
  | readLine : String → Event
  | beginHandle : String → Event
  | endHandle : Event
  | emit : JSONRPCResponse → Event
deriving DecidableEq, Repr

/-- The event trace of `Server.Run` on the given lines. -/
def runTrace (outputDir : String) (envs : Nat → Env)
    (parse : String → Option JSONRPCRequest) :
    List String → Nat → List Event
  | [], _ => []
  | line :: rest, k =>
    if line = "" then .readLine line :: runTrace outputDir envs parse rest k
    else
      match parse line with
      | none => .readLine line :: runTrace outputDir envs parse rest k
      | some req =>
        match handleRequest outputDir (envs k) req with
        | .panic => [.readLine line, .beginHandle req.method]
        | .err _ => .readLine line :: .beginHandle req.method :: .endHandle ::
            runTrace outputDir envs parse rest (k + 1)
        | .ok none => .readLine line :: .beginHandle req.method :: .endHandle ::
            runTrace outputDir envs parse rest (k + 1)
        | .ok (some resp) => .readLine line :: .beginHandle req.method :: .endHandle ::
            .emit resp :: runTrace outputDir envs parse rest (k + 1)

/-- States of the serial-processing automaton: before any read, just after a
read, inside a handler, and just after a handler returned. -/
inductive TState where
  | expectRead : TState
  | afterRead : TState
  | handling : TState
  | afterEnd : TState
deriving DecidableEq, Repr

/-- Allowed transitions: a line may be read only outside any handling, at
most one handler is open at a time, and an emitted reply follows its own
handler immediately, before any further read. -/
def traceStep : TState → Event → Option TState
  | .expectRead, .readLine _ => some .afterRead
  | .afterRead, .readLine _ => some .afterRead
  | .afterRead, .beginHandle _ => some .handling
  | .handling, .endHandle => some .afterEnd
  | .afterEnd, .emit _ => some .expectRead
  | .afterEnd, .readLine _ => some .afterRead
  | _, _ => none

/-- Run the automaton; any state may end the trace (end of input, or a
crash while handling). -/
def traceOK : TState → List Event → Bool
  | _, [] => true
  | s, e :: rest =>
    match traceStep s e with
    | none => false
    | some s2 => traceOK s2 rest

/-- The replies printed according to the trace, in order. -/
def emitsOf (tr : List Event) : List JSONRPCResponse :=
  tr.filterMap (fun e => match e with | .emit r => some r | _ => none)

/-! ### Effect counters and argument predicates -/

/-- Whether an effect is the outbound API call. -/
def isApiCall : Effect → Bool
  | .apiCall _ => true
  | _ => false

/-- Whether an effect is a file write. -/
def isWrite : Effect → Bool
  | .writeFile _ _ => true
  | _ => false

/-- Whether an effect is a directory creation (start of a save step). -/
def isMkdir : Effect → Bool
  | .mkdirAll _ => true
  | _ => false

/-- The prompt argument, after the string assertion. -/
def promptOf (args : Args) : String := (argString args "prompt").getD ""

/-- Whether `generateImage` accepts its arguments. -/
def promptOK (args : Args) : Bool :=
  match argString args "prompt" with
  | some p => !(p = "")
  | none => false

/-- Whether `editImage` reaches its API call: both arguments present and
non-empty, the cleaned path free of `..`, and the source file readable. -/
def editPreOK (args : Args) (env : Env) : Bool :=
  match argString args "image_path", argString args "prompt" with
  | some p, some q =>
    if p = "" then false
    else if q = "" then false
    else if strContains (clean p) ".." then false
    else
      match env.readFileRes (clean p) with
      | .ok _ => true
      | .err _ => false
  | _, _ => false

/-! ### Concrete environments and a concrete parse oracle, used to evaluate
the theorems on closed inputs -/

/-- A world where every external call fails or is empty. -/
def idleEnv : Env :=
  ⟨fun _ => .err "open: no such file or directory",
   .err "connection refused",
   none, none,
   "2026-01-01T00-00-00",
   fun p => .ok ("/work/" ++ p)⟩

/-- A world where the API returns one candidate holding the bytes 1, 2, 3
as inline data and the filesystem cooperates. -/
def okEnv : Env :=
  ⟨fun _ => .ok [9, 9],
   .ok [⟨⟨[⟨"", some ⟨"image/png", [1, 2, 3]⟩⟩]⟩⟩],
   none, none,
   "2026-01-01T00-04-05",
   fun p => .ok ("/work/" ++ p)⟩

/-- A world where the API call succeeds but returns no candidates. -/
def emptyCandsEnv : Env :=
  ⟨fun _ => .ok [7],
   .ok [],
   none, none,
   "2026-01-01T00-00-00",
   fun p => .ok ("/work/" ++ p)⟩

/-- A concrete parse oracle, consistent with JSON decoding: a notification
line, an initialize line, and a line that is not valid JSON. -/
def sampleParse : String → Option JSONRPCRequest := fun s =>
  if s = "notifLine" then some ⟨"2.0", .vnull, "notifications/initialized", none⟩
  else if s = "initLine" then some ⟨"2.0", .vnum 1, "initialize", none⟩
  else none

/-! ## Theorems -/

/-- Every response produced by `handleCallTool` is a JSON-RPC 2.0 response
carrying exactly one of a result or an error. -/
theorem toolResponse_shape (id : GoVal) (g : GoResult CallToolResult)
    (r : JSONRPCResponse) (h : toolResponse id g = .ok r) :
    r.jsonrpc = "2.0" ∧ (r.result.isSome ↔ r.error.isNone) := by
  cases g with
  | panic => cases h
  | err e => cases h; simp
  | ok c => cases h; simp

theorem handleCallTool_shape (dir : String) (env : Env) (req : JSONRPCRequest)
    (r : JSONRPCResponse) (h : handleCallTool dir env req = .ok r) :
    r.jsonrpc = "2.0" ∧ (r.result.isSome ↔ r.error.isNone) := by
  obtain ⟨j, rid, m, ps⟩ := req
  cases ps with
  | none =>
    unfold handleCallTool at h
    cases h
    simp
  | some p =>
    unfold handleCallTool at h
    dsimp only at h
    by_cases hg : p.name = "generate_image"
    · rw [if_pos hg] at h
      exact toolResponse_shape _ _ _ h
    · rw [if_neg hg] at h
      by_cases he : p.name = "edit_image"
      · rw [if_pos he] at h
        exact toolResponse_shape _ _ _ h
      · rw [if_neg he] at h
        cases h
        simp

/-- C2: the dispatcher routes by method name over the fixed command set:
`initialize`, `notifications/initialized`, `tools/list` and `tools/call`
each take their branch, and any other method yields a JSON-RPC error with
code -32601 and message `Method not found`, echoing the request id. -/
theorem c2_method_dispatch :
    (∀ dir env req, req.method = "initialize" →
        handleRequest dir env req = .ok (some (handleInitialize req))) ∧
    (∀ dir env req, req.method = "notifications/initialized" →
        handleRequest dir env req = .ok none) ∧
    (∀ dir env req, req.method = "tools/list" →
        handleRequest dir env req = .ok (some (handleListTools req))) ∧
    (∀ dir env req r, req.method = "tools/call" →
        handleCallTool dir env req = .ok r →
        handleRequest dir env req = .ok (some r)) ∧
    (∀ dir env req, req.method ≠ "initialize" →
        req.method ≠ "notifications/initialized" →
        req.method ≠ "tools/list" → req.method ≠ "tools/call" →
        handleRequest dir env req =
          .ok (some ⟨"2.0", req.id, none, some ⟨-32601, "Method not found"⟩⟩)) := by
  refine ⟨?_, ?_, ?_, ?_, ?_⟩
  · intro dir env req h
    simp [handleRequest, h]
  · intro dir env req h
    simp [handleRequest, h]
  · intro dir env req h
    simp [handleRequest, h]
  · intro dir env req r h hc
    simp [handleRequest, h, hc]
  · intro dir env req h1 h2 h3 h4
    simp [handleRequest, h1, h2, h3, h4]

/-- Witness for C2 at concrete requests: each of the four methods takes its
branch and an unknown method is answered with -32601. -/
theorem c2_method_dispatch_witness :
    handleRequest "generated" idleEnv ⟨"2.0", .vnum 1, "initialize", none⟩ =
      .ok (some (handleInitialize ⟨"2.0", .vnum 1, "initialize", none⟩)) ∧
    handleRequest "generated" idleEnv ⟨"2.0", .vnull, "notifications/initialized", none⟩ =
      .ok none ∧
    handleRequest "generated" idleEnv ⟨"2.0", .vnum 2, "tools/list", none⟩ =
      .ok (some (handleListTools ⟨"2.0", .vnum 2, "tools/list", none⟩)) ∧
    handleRequest "generated" idleEnv ⟨"2.0", .vnum 5, "tools/call", none⟩ =
      .ok (some ⟨"2.0", .vnum 5, none, some ⟨-32602, "Invalid params"⟩⟩) ∧
    handleRequest "generated" idleEnv ⟨"2.0", .vnum 4, "unknown/method", none⟩ =
      .ok (some ⟨"2.0", .vnum 4, none, some ⟨-32601, "Method not found"⟩⟩) :=
  ⟨c2_method_dispatch.1 "generated" idleEnv _ rfl,
   c2_method_dispatch.2.1 "generated" idleEnv _ rfl,
   c2_method_dispatch.2.2.1 "generated" idleEnv _ rfl,
   c2_method_dispatch.2.2.2.1 "generated" idleEnv _ _ rfl rfl,
   c2_method_dispatch.2.2.2.2 "generated" idleEnv _
     (by decide) (by decide) (by decide) (by decide)⟩

/-- C3: a `tools/call` request is dispatched to `generate_image` or
`edit_image`; any other tool name yields a JSON-RPC error with code -32601
and message `Unknown tool: <name>`, and `tools/list` advertises exactly
these two tools. -/
theorem c3_tool_dispatch :
    (∀ dir env req p, req.params = some p → p.name = "generate_image" →
        handleCallTool dir env req =
          toolResponse req.id (generateImage dir p.arguments env).1) ∧
    (∀ dir env req p, req.params = some p → p.name = "edit_image" →
        handleCallTool dir env req =
          toolResponse req.id (editImage dir p.arguments env).1) ∧
    (∀ dir env req p, req.params = some p →
        p.name ≠ "generate_image" → p.name ≠ "edit_image" →
        handleCallTool dir env req =
          .ok ⟨"2.0", req.id, none, some ⟨-32601, "Unknown tool: " ++ p.name⟩⟩) ∧
    toolsList.map Tool.name = ["generate_image", "edit_image"] ∧
    (∀ req, (handleListTools req).result = some (.listRes toolsList) ∧
        (handleListTools req).error = none) := by
  refine ⟨?_, ?_, ?_, by decide, fun req => ⟨rfl, rfl⟩⟩
  · intro dir env req p hp hn
    simp [handleCallTool, hp, hn]
  · intro dir env req p hp hn
    simp [handleCallTool, hp, hn]
  · intro dir env req p hp h1 h2
    simp [handleCallTool, hp, h1, h2]

/-- Witness for C3 at concrete calls: both tools are reached and an unknown
tool is rejected. -/
theorem c3_tool_dispatch_witness :
    handleCallTool "generated" idleEnv ⟨"2.0", .vnum 6, "tools/call", some ⟨"generate_image", []⟩⟩ =
      toolResponse (.vnum 6) (generateImage "generated" [] idleEnv).1 ∧
    handleCallTool "generated" idleEnv ⟨"2.0", .vnum 7, "tools/call", some ⟨"edit_image", []⟩⟩ =
      toolResponse (.vnum 7) (editImage "generated" [] idleEnv).1 ∧
    handleCallTool "generated" idleEnv ⟨"2.0", .vnum 3, "tools/call", some ⟨"unknown_tool", []⟩⟩ =
      .ok ⟨"2.0", .vnum 3, none, some ⟨-32601, "Unknown tool: unknown_tool"⟩⟩ :=
  ⟨c3_tool_dispatch.1 "generated" idleEnv _ _ rfl rfl,
   c3_tool_dispatch.2.1 "generated" idleEnv _ _ rfl rfl,
   c3_tool_dispatch.2.2.1 "generated" idleEnv
     ⟨"2.0", .vnum 3, "tools/call", some ⟨"unknown_tool", []⟩⟩
     ⟨"unknown_tool", []⟩ rfl (by decide) (by decide)⟩

/-- C4: when a dispatched tool returns an error, the reply is a JSON-RPC
response whose `Result` (never its `Error`) carries `IsError = true` and a
single text content equal to `Error: ` followed by the message. -/
theorem c4_tool_error_becomes_result :
    ∀ dir env req p e, req.params = some p →
      ((p.name = "generate_image" ∧ (generateImage dir p.arguments env).1 = .err e) ∨
       (p.name = "edit_image" ∧ (editImage dir p.arguments env).1 = .err e)) →
      handleCallTool dir env req =
        .ok ⟨"2.0", req.id,
             some (.callRes ⟨[⟨"text", "Error: " ++ e, "", ""⟩], true⟩), none⟩ := by
  intro dir env req p e hp h
  rcases h with ⟨hn, he⟩ | ⟨hn, he⟩
  · simp [handleCallTool, hp, hn, toolResponse, he]
  · simp [handleCallTool, hp, hn, toolResponse, he]

/-- Witness for C4: a `generate_image` call with no arguments fails with
`prompt is required` and the reply carries `Error: prompt is required` in a
result, not a JSON-RPC error. -/
theorem c4_tool_error_becomes_result_witness :
    handleCallTool "generated" idleEnv ⟨"2.0", .vnum 8, "tools/call", some ⟨"generate_image", []⟩⟩ =
      .ok ⟨"2.0", .vnum 8,
           some (.callRes ⟨[⟨"text", "Error: prompt is required", "", ""⟩], true⟩), none⟩ :=
  c4_tool_error_becomes_result "generated" idleEnv _ _ "prompt is required" rfl
    (Or.inl ⟨rfl, rfl⟩)

/-- C8: every response the server prints is a JSON-RPC 2.0 response with
exactly one of a result or an error set. -/
theorem c8_response_shape :
    ∀ dir env req resp, handleRequest dir env req = .ok (some resp) →
      resp.jsonrpc = "2.0" ∧ (resp.result.isSome ↔ resp.error.isNone) := by
  intro dir env req resp h
  unfold handleRequest at h
  by_cases h1 : req.method = "initialize"
  · rw [if_pos h1] at h
    cases h
    simp [handleInitialize]
  · rw [if_neg h1] at h
    by_cases h2 : req.method = "notifications/initialized"
    · rw [if_pos h2] at h
      cases h
    · rw [if_neg h2] at h
      by_cases h3 : req.method = "tools/list"
      · rw [if_pos h3] at h
        cases h
        simp [handleListTools]
      · rw [if_neg h3] at h
        by_cases h4 : req.method = "tools/call"
        · rw [if_pos h4] at h
          cases hc : handleCallTool dir env req with
          | panic => rw [hc] at h; cases h
          | err e => rw [hc] at h; cases h
          | ok r =>
            rw [hc] at h
            cases h
            exact handleCallTool_shape dir env req resp hc
        · rw [if_neg h4] at h
          cases h
          simp

/-- Witness for C8 at a concrete request. -/
theorem c8_response_shape_witness :
    handleRequest "generated" idleEnv ⟨"2.0", .vnum 1, "initialize", none⟩ =
      .ok (some (handleInitialize ⟨"2.0", .vnum 1, "initialize", none⟩)) ∧
    (handleInitialize ⟨"2.0", .vnum 1, "initialize", none⟩).jsonrpc = "2.0" ∧
    ((handleInitialize ⟨"2.0", .vnum 1, "initialize", none⟩).result.isSome ↔
      (handleInitialize ⟨"2.0", .vnum 1, "initialize", none⟩).error.isNone) :=
  ⟨rfl, c8_response_shape "generated" idleEnv ⟨"2.0", .vnum 1, "initialize", none⟩ _ rfl⟩

/-- C5: the read loop is line oriented: an empty line is skipped, a
non-empty line that fails to parse is skipped, and a non-empty line that
parses is handled as one request envelope, contributing its reply (if any)
before the remaining lines are processed. -/
theorem c5_line_protocol :
    (∀ dir envs parse rest k,
        runLines dir envs parse ("" :: rest) k = runLines dir envs parse rest k) ∧
    (∀ dir envs parse line rest k, line ≠ "" → parse line = none →
        runLines dir envs parse (line :: rest) k = runLines dir envs parse rest k) ∧
    (∀ dir envs parse line rest k req, line ≠ "" → parse line = some req →
        handleRequest dir (envs k) req = .ok none →
        runLines dir envs parse (line :: rest) k =
          runLines dir envs parse rest (k + 1)) ∧
    (∀ dir envs parse line rest k req resp outs, line ≠ "" → parse line = some req →
        handleRequest dir (envs k) req = .ok (some resp) →
        runLines dir envs parse rest (k + 1) = .ok outs →
        runLines dir envs parse (line :: rest) k = .ok (resp :: outs)) := by
  refine ⟨?_, ?_, ?_, ?_⟩
  · intro dir envs parse rest k
    simp [runLines]
  · intro dir envs parse line rest k h1 h2
    simp [runLines, h1, h2]
  · intro dir envs parse line rest k req h1 h2 h3
    simp [runLines, h1, h2, h3]
  · intro dir envs parse line rest k req resp outs h1 h2 h3 h4
    simp [runLines, h1, h2, h3, h4]

/-- Witness for C5: an empty line, an unparseable line and a notification
line produce no output, and an initialize line produces its reply. -/
theorem c5_line_protocol_witness :
    runLines "generated" (fun _ => idleEnv) sampleParse ("" :: ["initLine"]) 0 =
      runLines "generated" (fun _ => idleEnv) sampleParse ["initLine"] 0 ∧
    runLines "generated" (fun _ => idleEnv) sampleParse ("badLine" :: ["initLine"]) 0 =
      runLines "generated" (fun _ => idleEnv) sampleParse ["initLine"] 0 ∧
    runLines "generated" (fun _ => idleEnv) sampleParse ("notifLine" :: []) 0 =
      runLines "generated" (fun _ => idleEnv) sampleParse [] 1 ∧
    runLines "generated" (fun _ => idleEnv) sampleParse ("initLine" :: []) 0 =
      .ok [⟨"2.0", .vnum 1,
            some (.initRes ⟨protocolVersion, true, serverName, serverVersion⟩), none⟩] :=
  ⟨c5_line_protocol.1 "generated" (fun _ => idleEnv) sampleParse ["initLine"] 0,
   c5_line_protocol.2.1 "generated" (fun _ => idleEnv) sampleParse "badLine" ["initLine"] 0
     (by decide) rfl,
   c5_line_protocol.2.2.1 "generated" (fun _ => idleEnv) sampleParse "notifLine" [] 0 _
     (by decide) rfl rfl,
   c5_line_protocol.2.2.2 "generated" (fun _ => idleEnv) sampleParse "initLine" [] 0 _ _ []
     (by decide) rfl rfl rfl⟩

/-- The handler yields no response exactly for the notification method. -/
theorem handleRequest_none_iff (dir : String) (env : Env) (r : JSONRPCRequest) :
    handleRequest dir env r = .ok none ↔ r.method = "notifications/initialized" := by
  constructor
  · intro h
    by_contra hm
    unfold handleRequest at h
    by_cases h1 : r.method = "initialize"
    · rw [if_pos h1] at h
      simp at h
    · rw [if_neg h1, if_neg hm] at h
      by_cases h3 : r.method = "tools/list"
      · rw [if_pos h3] at h
        simp at h
      · rw [if_neg h3] at h
        by_cases h4 : r.method = "tools/call"
        · rw [if_pos h4] at h
          cases hc : handleCallTool dir env r with
          | panic => rw [hc] at h; simp at h
          | err e => rw [hc] at h; simp at h
          | ok x => rw [hc] at h; simp at h
        · rw [if_neg h4] at h
          simp at h
  · intro h
    have h1 : r.method ≠ "initialize" := by rw [h]; decide
    simp [handleRequest, h1, h]

/-- C1 counterexample: a notification request arrives (one request is read
and parsed) but the server emits no reply for it, so the run produces
fewer replies than requests. -/
theorem c1_notification_without_reply :
    sampleParse "notifLine" =
      some ⟨"2.0", .vnull, "notifications/initialized", none⟩ ∧
    parsedReqs sampleParse ["notifLine"] =
      [⟨"2.0", .vnull, "notifications/initialized", none⟩] ∧
    runLines "generated" (fun _ => idleEnv) sampleParse ["notifLine"] 0 = .ok [] :=
  ⟨rfl, rfl, rfl⟩

/-- C1 (amended): the replies of a run are exactly the replies of the
arriving requests, taken in arrival order, and every request other than a
`notifications/initialized` notification contributes exactly one reply. -/
theorem c1_replies_in_arrival_order :
    (∀ dir envs parse lines k,
        runLines dir envs parse lines k =
          repliesOf dir envs (parsedReqs parse lines) k) ∧
    (∀ dir envs reqs k outs, repliesOf dir envs reqs k = .ok outs →
        outs.length +
            reqs.countP (fun r => decide (r.method = "notifications/initialized")) =
          reqs.length) := by
  constructor
  · intro dir envs parse lines
    induction lines with
    | nil => intro k; simp [runLines, parsedReqs, repliesOf]
    | cons line rest ih =>
      intro k
      by_cases h1 : line = ""
      · have hp2 : parsedReqs parse (line :: rest) = parsedReqs parse rest := by
          simp [parsedReqs, h1]
        rw [hp2]
        have hr2 : runLines dir envs parse (line :: rest) k =
            runLines dir envs parse rest k := by
          simp [runLines, h1]
        rw [hr2]
        exact ih k
      · cases hp : parse line with
        | none =>
          have hp2 : parsedReqs parse (line :: rest) = parsedReqs parse rest := by
            simp [parsedReqs, h1, hp]
          rw [hp2]
          have hr2 : runLines dir envs parse (line :: rest) k =
              runLines dir envs parse rest k := by
            simp [runLines, h1, hp]
          rw [hr2]
          exact ih k
        | some req =>
          have hp2 : parsedReqs parse (line :: rest) = req :: parsedReqs parse rest := by
            simp [parsedReqs, h1, hp]
          rw [hp2]
          simp only [runLines, if_neg h1, hp, repliesOf, ih]
  · intro dir envs reqs
    induction reqs with
    | nil =>
      intro k outs h
      simp [repliesOf] at h
      subst h
      simp
    | cons r rs ih =>
      intro k outs h
      unfold repliesOf at h
      cases hr : handleRequest dir (envs k) r with
      | panic => rw [hr] at h; simp at h
      | err e => rw [hr] at h; simp at h
      | ok o =>
        rw [hr] at h
        cases o with
        | none =>
          have hm : r.method = "notifications/initialized" :=
            (handleRequest_none_iff dir (envs k) r).mp hr
          have hlen := ih (k + 1) outs h
          simp only [List.countP_cons, List.length_cons, hm]
          simp
          omega
        | some resp =>
          cases hrec : repliesOf dir envs rs (k + 1) with
          | panic => rw [hrec] at h; simp at h
          | err e => rw [hrec] at h; simp at h
          | ok outs0 =>
            rw [hrec] at h
            simp at h
            subst h
            have hm : ¬ r.method = "notifications/initialized" := by
              intro hm
              have hnone := (handleRequest_none_iff dir (envs k) r).mpr hm
              rw [hnone] at hr
              simp at hr
            have hlen := ih (k + 1) outs0 hrec
            simp only [List.countP_cons, List.length_cons, hm]
            simp
            omega

/-- Witness for C1: a run with an initialize line, an empty line and a
notification line equals the reply stream of its two arriving requests, and
that stream has one reply for two requests, one of which is a
notification. -/
theorem c1_replies_in_arrival_order_witness :
    runLines "generated" (fun _ => idleEnv) sampleParse ["initLine", "", "notifLine"] 0 =
      repliesOf "generated" (fun _ => idleEnv)
        (parsedReqs sampleParse ["initLine", "", "notifLine"]) 0 ∧
    ([(⟨"2.0", .vnum 1,
        some (.initRes ⟨protocolVersion, true, serverName, serverVersion⟩),
        none⟩ : JSONRPCResponse)].length +
        [(⟨"2.0", .vnum 1, "initialize", none⟩ : JSONRPCRequest),
         ⟨"2.0", .vnull, "notifications/initialized", none⟩].countP
          (fun r => decide (r.method = "notifications/initialized")) =
      [(⟨"2.0", .vnum 1, "initialize", none⟩ : JSONRPCRequest),
       ⟨"2.0", .vnull, "notifications/initialized", none⟩].length) :=
  ⟨c1_replies_in_arrival_order.1 "generated" (fun _ => idleEnv) sampleParse
     ["initLine", "", "notifLine"] 0,
   c1_replies_in_arrival_order.2 "generated" (fun _ => idleEnv)
     [⟨"2.0", .vnum 1, "initialize", none⟩,
      ⟨"2.0", .vnull, "notifications/initialized", none⟩] 0 _ rfl⟩

/-- C9 counterexample: the prompt is validated before the traversal check,
so an argument map whose `image_path` cleans to a path containing `..` but
which lacks a prompt is answered with `prompt is required`, not with the
directory-traversal error. -/
theorem c9_prompt_checked_before_traversal :
    strContains (clean "../etc/passwd") ".." = true ∧
    editImage "generated" [("image_path", .vstr "../etc/passwd")] idleEnv =
      (.err "prompt is required", []) :=
  ⟨by decide, rfl⟩

/-- C9 (amended): when both arguments pass their presence checks and the
cleaned `image_path` still contains `..`, `edit_image` fails with the
directory-traversal error and performs no file read, no API call and no
write (its effect trace is empty). -/
theorem c9_traversal_rejected :
    ∀ dir args env p q, argString args "image_path" = some p → p ≠ "" →
      argString args "prompt" = some q → q ≠ "" →
      strContains (clean p) ".." = true →
      editImage dir args env =
        (.err "invalid image path: directory traversal not allowed", []) := by
  intro dir args env p q hp hpne hq hqne hcc
  simp [editImage, hp, hpne, hq, hqne, hcc]

/-- Witness for C9 at the arguments of the Go path-traversal test. -/
theorem c9_traversal_rejected_witness :
    editImage "generated"
        [("image_path", .vstr "../etc/passwd"), ("prompt", .vstr "test prompt")] idleEnv =
      (.err "invalid image path: directory traversal not allowed", []) :=
  c9_traversal_rejected "generated"
    [("image_path", .vstr "../etc/passwd"), ("prompt", .vstr "test prompt")]
    idleEnv "../etc/passwd" "test prompt" rfl (by decide) rfl (by decide) (by decide)

/-- C10: the response extraction indexes the first candidate without a
bounds check, so an API success whose candidate list is empty makes both
tools panic (index out of range) instead of staying in bounds. -/
theorem c10_empty_candidates_panic :
    extractFirst [] = none ∧
    (generateImage "generated" [("prompt", .vstr "a cat")] emptyCandsEnv).1 = .panic ∧
    (editImage "generated"
        [("image_path", .vstr "img.png"), ("prompt", .vstr "x")] emptyCandsEnv).1 =
      .panic :=
  ⟨rfl, rfl, rfl⟩

/-- From any state other than `handling`, the trace of the read loop is
accepted by the serial-processing automaton. -/
theorem traceOK_runTrace (dir : String) (envs : Nat → Env)
    (parse : String → Option JSONRPCRequest) (lines : List String) :
    ∀ k s, s ≠ TState.handling →
      traceOK s (runTrace dir envs parse lines k) = true := by
  induction lines with
  | nil =>
    intro k s hs
    simp [runTrace, traceOK]
  | cons line rest ih =>
    intro k s hs
    have hread : ∀ l, traceStep s (.readLine l) = some .afterRead := by
      intro l
      cases s with
      | handling => exact absurd rfl hs
      | expectRead => rfl
      | afterRead => rfl
      | afterEnd => rfl
    by_cases h1 : line = ""
    · rw [show runTrace dir envs parse (line :: rest) k =
          .readLine line :: runTrace dir envs parse rest k from by
        simp [runTrace, h1]]
      rw [traceOK, hread line]
      exact ih k .afterRead (by intro hh; cases hh)
    · cases hp : parse line with
      | none =>
        rw [show runTrace dir envs parse (line :: rest) k =
            .readLine line :: runTrace dir envs parse rest k from by
          simp [runTrace, h1, hp]]
        rw [traceOK, hread line]
        exact ih k .afterRead (by intro hh; cases hh)
      | some req =>
        cases hr : handleRequest dir (envs k) req with
        | panic =>
          rw [show runTrace dir envs parse (line :: rest) k =
              [.readLine line, .beginHandle req.method] from by
            simp [runTrace, h1, hp, hr]]
          rw [traceOK, hread line]
          simp [traceOK, traceStep]
        | err e =>
          rw [show runTrace dir envs parse (line :: rest) k =
              .readLine line :: .beginHandle req.method :: .endHandle ::
                runTrace dir envs parse rest (k + 1) from by
            simp [runTrace, h1, hp, hr]]
          rw [traceOK, hread line]
          exact ih (k + 1) .afterEnd (by intro hh; cases hh)
        | ok o =>
          cases o with
          | none =>
            rw [show runTrace dir envs parse (line :: rest) k =
                .readLine line :: .beginHandle req.method :: .endHandle ::
                  runTrace dir envs parse rest (k + 1) from by
              simp [runTrace, h1, hp, hr]]
            rw [traceOK, hread line]
            exact ih (k + 1) .afterEnd (by intro hh; cases hh)
          | some resp =>
            rw [show runTrace dir envs parse (line :: rest) k =
                .readLine line :: .beginHandle req.method :: .endHandle ::
                  .emit resp :: runTrace dir envs parse rest (k + 1) from by
              simp [runTrace, h1, hp, hr]]
            rw [traceOK, hread line]
            exact ih (k + 1) .expectRead (by intro hh; cases hh)

/-- C7: processing is serial and synchronous: the event trace of every run
is accepted by the automaton in which a line is read only when no request
is being handled, at most one request is ever open, and a reply is emitted
immediately after its own handler returns and before any further read; and
the replies emitted in the trace are exactly the run's outputs, in order. -/
theorem c7_serial_processing :
    (∀ dir envs parse lines k,
        traceOK .expectRead (runTrace dir envs parse lines k) = true) ∧
    (∀ dir envs parse lines k outs, runLines dir envs parse lines k = .ok outs →
        emitsOf (runTrace dir envs parse lines k) = outs) := by
  constructor
  · intro dir envs parse lines k
    exact traceOK_runTrace dir envs parse lines k .expectRead (by intro hh; cases hh)
  · intro dir envs parse lines
    induction lines with
    | nil =>
      intro k outs h
      simp [runLines] at h
      subst h
      simp [runTrace, emitsOf]
    | cons line rest ih =>
      intro k outs h
      by_cases h1 : line = ""
      · rw [show runLines dir envs parse (line :: rest) k =
            runLines dir envs parse rest k from by simp [runLines, h1]] at h
        rw [show runTrace dir envs parse (line :: rest) k =
            .readLine line :: runTrace dir envs parse rest k from by
          simp [runTrace, h1]]
        simp only [emitsOf, List.filterMap_cons]
        exact ih k outs h
      · cases hp : parse line with
        | none =>
          rw [show runLines dir envs parse (line :: rest) k =
              runLines dir envs parse rest k from by simp [runLines, h1, hp]] at h
          rw [show runTrace dir envs parse (line :: rest) k =
              .readLine line :: runTrace dir envs parse rest k from by
            simp [runTrace, h1, hp]]
          simp only [emitsOf, List.filterMap_cons]
          exact ih k outs h
        | some req =>
          cases hr : handleRequest dir (envs k) req with
          | panic =>
            rw [show runLines dir envs parse (line :: rest) k = .panic from by
              simp [runLines, h1, hp, hr]] at h
            simp at h
          | err e =>
            rw [show runLines dir envs parse (line :: rest) k = .err e from by
              simp [runLines, h1, hp, hr]] at h
            simp at h
          | ok o =>
            cases o with
            | none =>
              rw [show runLines dir envs parse (line :: rest) k =
                  runLines dir envs parse rest (k + 1) from by
                simp [runLines, h1, hp, hr]] at h
              rw [show runTrace dir envs parse (line :: rest) k =
                  .readLine line :: .beginHandle req.method :: .endHandle ::
                    runTrace dir envs parse rest (k + 1) from by
                simp [runTrace, h1, hp, hr]]
              simp only [emitsOf, List.filterMap_cons]
              exact ih (k + 1) outs h
            | some resp =>
              cases hrec : runLines dir envs parse rest (k + 1) with
              | panic =>
                rw [show runLines dir envs parse (line :: rest) k = .panic from by
                  simp [runLines, h1, hp, hr, hrec]] at h
                simp at h
              | err e =>
                rw [show runLines dir envs parse (line :: rest) k = .err e from by
                  simp [runLines, h1, hp, hr, hrec]] at h
                simp at h
              | ok outs0 =>
                rw [show runLines dir envs parse (line :: rest) k =
                    .ok (resp :: outs0) from by
                  simp [runLines, h1, hp, hr, hrec]] at h
                simp at h
                subst h
                rw [show runTrace dir envs parse (line :: rest) k =
                    .readLine line :: .beginHandle req.method :: .endHandle ::
                      .emit resp :: runTrace dir envs parse rest (k + 1) from by
                  simp [runTrace, h1, hp, hr]]
                simp only [emitsOf, List.filterMap_cons]
                simp only [emitsOf] at ih
                rw [ih (k + 1) outs0 hrec]

/-- Witness for C7: a concrete two-line run is accepted by the automaton
and its emitted replies are its outputs. -/
theorem c7_serial_processing_witness :
    traceOK .expectRead
        (runTrace "generated" (fun _ => idleEnv) sampleParse
          ["initLine", "notifLine"] 0) = true ∧
    emitsOf (runTrace "generated" (fun _ => idleEnv) sampleParse
        ["initLine", "notifLine"] 0) =
      [⟨"2.0", .vnum 1,
        some (.initRes ⟨protocolVersion, true, serverName, serverVersion⟩), none⟩] :=
  ⟨c7_serial_processing.1 "generated" (fun _ => idleEnv) sampleParse
     ["initLine", "notifLine"] 0,
   c7_serial_processing.2 "generated" (fun _ => idleEnv) sampleParse
     ["initLine", "notifLine"] 0 _ rfl⟩

/-- The save step never calls the API, attempts exactly one directory
creation, and attempts at most one write. -/
theorem saveImage_trace (dir b pfx : String) (env : Env) :
    (saveImage dir b pfx env).2.countP isApiCall = 0 ∧
    (saveImage dir b pfx env).2.countP isMkdir = 1 ∧
    (saveImage dir b pfx env).2.countP isWrite ≤ 1 := by
  unfold saveImage
  cases hm : env.mkdirErr with
  | some e => simp [isApiCall, isMkdir, isWrite]
  | none =>
    cases hd : b64Decode b with
    | none => simp [isApiCall, isMkdir, isWrite]
    | some bytes =>
      cases hw : env.writeErr with
      | some e => simp [isApiCall, isMkdir, isWrite]
      | none =>
        cases ha : env.absPathRes (goJoin (goJoin "." dir) (pfx ++ "-" ++ env.timestamp ++ ".png")) with
        | err e => simp [ha, isApiCall, isMkdir, isWrite]
        | ok a => simp [ha, isApiCall, isMkdir, isWrite]

/-- A successful save decoded the base64 data, created the output directory,
wrote exactly the file `<prefix>-<timestamp>.png` under it, and returned the
path reported by `filepath.Abs` for that file. -/
theorem saveImage_ok (dir b pfx : String) (env : Env) (a : String) (tr : List Effect)
    (h : saveImage dir b pfx env = (.ok a, tr)) :
    (∃ bytes, b64Decode b = some bytes ∧
      tr = [.mkdirAll (goJoin "." dir),
            .writeFile (goJoin (goJoin "." dir) (pfx ++ "-" ++ env.timestamp ++ ".png"))
              bytes]) ∧
    env.absPathRes (goJoin (goJoin "." dir) (pfx ++ "-" ++ env.timestamp ++ ".png")) =
      .ok a := by
  unfold saveImage at h
  cases hm : env.mkdirErr with
  | some e => simp only [hm] at h; simp at h
  | none =>
    simp only [hm] at h
    cases hd : b64Decode b with
    | none => simp only [hd] at h; simp at h
    | some bytes =>
      simp only [hd] at h
      cases hw : env.writeErr with
      | some e => simp only [hw] at h; simp at h
      | none =>
        simp only [hw] at h
        cases ha : env.absPathRes (goJoin (goJoin "." dir) (pfx ++ "-" ++ env.timestamp ++ ".png")) with
        | err e => simp only [ha] at h; simp at h
        | ok a2 =>
          simp only [ha] at h
          simp at h
          obtain ⟨h1, h2⟩ := h
          subst h1
          subst h2
          exact ⟨⟨bytes, rfl, rfl⟩, rfl⟩

/-- Effect-trace shapes of `generateImage`: an empty trace exactly when the
prompt fails validation; otherwise one API call, followed by the save-step
trace when the call returned a non-empty image. -/
theorem generateImage_trace (dir : String) (args : Args) (env : Env) :
    (promptOK args = false ∧ (generateImage dir args env).2 = []) ∨
    (promptOK args = true ∧
      ((generateImage dir args env).2 = [.apiCall [⟨promptOf args, none⟩]] ∨
       ∃ img, img ≠ "" ∧
         (generateImage dir args env).2 =
           .apiCall [⟨promptOf args, none⟩] :: (saveImage dir img "generated" env).2)) := by
  cases hp : argString args "prompt" with
  | none =>
    left
    exact ⟨by simp [promptOK, hp], by simp [generateImage, hp]⟩
  | some prompt =>
    by_cases hne : prompt = ""
    · left
      exact ⟨by simp [promptOK, hp, hne], by simp [generateImage, hp, hne]⟩
    · right
      refine ⟨by simp [promptOK, hp, hne], ?_⟩
      have hpo : promptOf args = prompt := by simp [promptOf, hp]
      rw [hpo]
      cases ha : env.apiRes with
      | err e => left; simp [generateImage, hp, hne, ha]
      | ok cands =>
        cases hx : extractFirst cands with
        | none => left; simp [generateImage, hp, hne, ha, hx]
        | some pr =>
          obtain ⟨img, txt⟩ := pr
          by_cases himg : img = ""
          · left; simp [generateImage, hp, hne, ha, hx, himg]
          · right
            refine ⟨img, himg, ?_⟩
            cases hs : saveImage dir img "generated" env with
            | mk res tr =>
              cases res with
              | err e => simp [generateImage, hp, hne, ha, hx, himg, hs]
              | ok f => simp [generateImage, hp, hne, ha, hx, himg, hs]

/-- Effect-trace shapes of `editImage`: nothing, a file read only, a read
and one API call, or a read, one API call and the save-step trace. -/
theorem editImage_trace (dir : String) (args : Args) (env : Env) :
    (editImage dir args env).2 = [] ∨
    (∃ p, (editImage dir args env).2 = [.readFile p]) ∨
    (∃ p parts, (editImage dir args env).2 = [.readFile p, .apiCall parts]) ∨
    (∃ p parts img, img ≠ "" ∧
      (editImage dir args env).2 =
        .readFile p :: .apiCall parts :: (saveImage dir img "edited" env).2) := by
  cases hp : argString args "image_path" with
  | none => left; simp [editImage, hp]
  | some ipath =>
    by_cases hne : ipath = ""
    · left; simp [editImage, hp, hne]
    · cases hq : argString args "prompt" with
      | none => left; simp [editImage, hp, hne, hq]
      | some prompt =>
        by_cases hqe : prompt = ""
        · left; simp [editImage, hp, hne, hq, hqe]
        · by_cases hcc : strContains (clean ipath) ".." = true
          · left; simp [editImage, hp, hne, hq, hqe, hcc]
          · rw [Bool.not_eq_true] at hcc
            cases hrf : env.readFileRes (clean ipath) with
            | err e =>
              right; left
              exact ⟨clean ipath, by simp [editImage, hp, hne, hq, hqe, hcc, hrf]⟩
            | ok bytes =>
              cases ha : env.apiRes with
              | err e =>
                right; right; left
                refine ⟨clean ipath,
                  [⟨"", some ⟨getMimeType (clean ipath), bytes⟩⟩, ⟨prompt, none⟩],
                  by simp [editImage, hp, hne, hq, hqe, hcc, hrf, ha]⟩
              | ok cands =>
                cases hx : extractFirst cands with
                | none =>
                  right; right; left
                  refine ⟨clean ipath,
                    [⟨"", some ⟨getMimeType (clean ipath), bytes⟩⟩, ⟨prompt, none⟩],
                    by simp [editImage, hp, hne, hq, hqe, hcc, hrf, ha, hx]⟩
                | some pr =>
                  obtain ⟨img, txt⟩ := pr
                  by_cases himg : img = ""
                  · right; right; left
                    refine ⟨clean ipath,
                      [⟨"", some ⟨getMimeType (clean ipath), bytes⟩⟩, ⟨prompt, none⟩],
                      by simp [editImage, hp, hne, hq, hqe, hcc, hrf, ha, hx, himg]⟩
                  · right; right; right
                    refine ⟨clean ipath,
                      [⟨"", some ⟨getMimeType (clean ipath), bytes⟩⟩, ⟨prompt, none⟩],
                      img, himg, ?_⟩
                    cases hs : saveImage dir img "edited" env with
                    | mk res tr =>
                      cases res with
                      | err e =>
                        simp [editImage, hp, hne, hq, hqe, hcc, hrf, ha, hx, himg, hs]
                      | ok f =>
                        simp [editImage, hp, hne, hq, hqe, hcc, hrf, ha, hx, himg, hs]

/-- `generateImage` performs at most one API call. -/
theorem generateImage_api_le (dir : String) (args : Args) (env : Env) :
    (generateImage dir args env).2.countP isApiCall ≤ 1 := by
  rcases generateImage_trace dir args env with ⟨_, h⟩ | ⟨_, h | ⟨img, hne, h⟩⟩
  · rw [h]; simp
  · rw [h]; simp [isApiCall]
  · rw [h]
    simp [List.countP_cons, isApiCall, (saveImage_trace dir img "generated" env).1]

/-- `editImage` performs at most one API call. -/
theorem editImage_api_le (dir : String) (args : Args) (env : Env) :
    (editImage dir args env).2.countP isApiCall ≤ 1 := by
  rcases editImage_trace dir args env with h | ⟨p, h⟩ | ⟨p, parts, h⟩ |
    ⟨p, parts, img, hne, h⟩
  · rw [h]; simp
  · rw [h]; simp [isApiCall]
  · rw [h]; simp [isApiCall]
  · rw [h]
    simp [List.countP_cons, isApiCall, (saveImage_trace dir img "edited" env).1]

/-- With a valid prompt, `generateImage` performs exactly one API call. -/
theorem generateImage_api_one (dir : String) (args : Args) (env : Env)
    (h : promptOK args = true) :
    (generateImage dir args env).2.countP isApiCall = 1 := by
  rcases generateImage_trace dir args env with ⟨hf, _⟩ | ⟨_, h2 | ⟨img, hne, h2⟩⟩
  · rw [h] at hf; cases hf
  · rw [h2]; simp [isApiCall]
  · rw [h2]
    simp [List.countP_cons, isApiCall, (saveImage_trace dir img "generated" env).1]

/-- With valid arguments, a clean path and a readable file, `editImage`
performs exactly one API call. -/
theorem editImage_api_one (dir : String) (args : Args) (env : Env)
    (h : editPreOK args env = true) :
    (editImage dir args env).2.countP isApiCall = 1 := by
  unfold editPreOK at h
  cases hp : argString args "image_path" with
  | none => rw [hp] at h; simp at h
  | some ipath =>
    cases hq : argString args "prompt" with
    | none => rw [hp, hq] at h; simp at h
    | some prompt =>
      rw [hp, hq] at h
      simp only at h
      by_cases hne : ipath = ""
      · rw [if_pos hne] at h; cases h
      · rw [if_neg hne] at h
        by_cases hqe : prompt = ""
        · rw [if_pos hqe] at h; cases h
        · rw [if_neg hqe] at h
          by_cases hcc : strContains (clean ipath) ".." = true
          · rw [if_pos hcc] at h; cases h
          · rw [if_neg hcc] at h
            rw [Bool.not_eq_true] at hcc
            cases hrf : env.readFileRes (clean ipath) with
            | err e => rw [hrf] at h; simp at h
            | ok bytes =>
              cases ha : env.apiRes with
              | err e =>
                simp [editImage, hp, hne, hq, hqe, hcc, hrf, ha,
                  List.countP_cons, isApiCall]
              | ok cands =>
                cases hx : extractFirst cands with
                | none =>
                  simp [editImage, hp, hne, hq, hqe, hcc, hrf, ha, hx,
                    List.countP_cons, isApiCall]
                | some pr =>
                  obtain ⟨img, txt⟩ := pr
                  by_cases himg : img = ""
                  · simp [editImage, hp, hne, hq, hqe, hcc, hrf, ha, hx, himg,
                      List.countP_cons, isApiCall]
                  · cases hs : saveImage dir img "edited" env with
                    | mk res tr =>
                      have hcount : tr.countP isApiCall = 0 := by
                        have := (saveImage_trace dir img "edited" env).1
                        rw [hs] at this
                        exact this
                      cases res with
                      | err e =>
                        simp [editImage, hp, hne, hq, hqe, hcc, hrf, ha, hx, himg, hs,
                          List.countP_cons, isApiCall, hcount]
                      | ok f =>
                        simp [editImage, hp, hne, hq, hqe, hcc, hrf, ha, hx, himg, hs,
                          List.countP_cons, isApiCall, hcount]

/-- When the API call of `generateImage` returns a non-empty image, the
trace is the API call followed by the save-step trace, and on save success
the result text reports the saved path. -/
theorem generateImage_success (dir : String) (args : Args) (env : Env)
    (cands : List Candidate) (img txt : String)
    (hok : promptOK args = true) (ha : env.apiRes = .ok cands)
    (hx : extractFirst cands = some (img, txt)) (himg : img ≠ "") :
    (generateImage dir args env).2 =
      .apiCall [⟨promptOf args, none⟩] :: (saveImage dir img "generated" env).2 ∧
    ∀ a, (saveImage dir img "generated" env).1 = .ok a →
      (generateImage dir args env).1 =
        .ok ⟨[⟨"text",
               "Image generated and saved to: " ++ a ++ "\n\nPrompt: " ++ promptOf args,
               "", ""⟩,
              ⟨"image", "", img, "image/png"⟩], false⟩ := by
  cases hp : argString args "prompt" with
  | none => rw [promptOK, hp] at hok; cases hok
  | some prompt =>
    have hne : ¬ prompt = "" := by
      rw [promptOK, hp] at hok
      simp at hok
      exact hok
    have hpo : promptOf args = prompt := by simp [promptOf, hp]
    rw [hpo]
    cases hs : saveImage dir img "generated" env with
    | mk res tr =>
      constructor
      · cases res with
        | err e => simp [generateImage, hp, hne, ha, hx, himg, hs]
        | ok f => simp [generateImage, hp, hne, ha, hx, himg, hs]
      · intro a hsa
        simp at hsa
        subst hsa
        simp [generateImage, hp, hne, ha, hx, himg, hs]

/-- When the API call of `editImage` returns a non-empty image, the trace is
the file read, the API call and the save-step trace, and on save success the
result text reports the saved path and the original path. -/
theorem editImage_success (dir : String) (args : Args) (env : Env)
    (cands : List Candidate) (img txt p q : String) (bytes : List Nat)
    (hp : argString args "image_path" = some p) (hpn : p ≠ "")
    (hq : argString args "prompt" = some q) (hqn : q ≠ "")
    (hcc : strContains (clean p) ".." = false)
    (hrf : env.readFileRes (clean p) = .ok bytes)
    (ha : env.apiRes = .ok cands)
    (hx : extractFirst cands = some (img, txt)) (himg : img ≠ "") :
    (editImage dir args env).2 =
      .readFile (clean p) ::
        .apiCall [⟨"", some ⟨getMimeType (clean p), bytes⟩⟩, ⟨q, none⟩] ::
          (saveImage dir img "edited" env).2 ∧
    ∀ a, (saveImage dir img "edited" env).1 = .ok a →
      (editImage dir args env).1 =
        .ok ⟨[⟨"text",
               "Image edited and saved to: " ++ a ++ "\n\nOriginal: " ++ p ++
                 "\nPrompt: " ++ q,
               "", ""⟩,
              ⟨"image", "", img, "image/png"⟩], false⟩ := by
  cases hs : saveImage dir img "edited" env with
  | mk res tr =>
    constructor
    · cases res with
      | err e => simp [editImage, hp, hpn, hq, hqn, hcc, hrf, ha, hx, himg, hs]
      | ok f => simp [editImage, hp, hpn, hq, hqn, hcc, hrf, ha, hx, himg, hs]
    · intro a hsa
      simp at hsa
      subst hsa
      simp [editImage, hp, hpn, hq, hqn, hcc, hrf, ha, hx, himg, hs]

/-- C6 counterexample: a `generate_image` invocation whose arguments fail
validation performs no outbound API call at all. -/
theorem c6_invalid_args_no_call :
    (generateImage "generated" [] idleEnv).1 = .err "prompt is required" ∧
    (generateImage "generated" [] idleEnv).2.countP isApiCall = 0 :=
  ⟨rfl, rfl⟩

/-- C6 (amended): each invocation of either tool performs at most one
outbound API call, and exactly one once its inputs pass validation (and for
`edit_image`, the path check and the file read); when the call returns a
non-empty image the trace continues with exactly one save step, which
creates the output directory once, decodes the base64 image, writes it once
as `<prefix>-<timestamp>.png` under the output directory, and whose
reported absolute path appears in the result text. -/
theorem c6_one_call_then_one_save :
    (∀ dir args env, (generateImage dir args env).2.countP isApiCall ≤ 1 ∧
        (editImage dir args env).2.countP isApiCall ≤ 1) ∧
    (∀ dir args env, promptOK args = true →
        (generateImage dir args env).2.countP isApiCall = 1) ∧
    (∀ dir args env, editPreOK args env = true →
        (editImage dir args env).2.countP isApiCall = 1) ∧
    (∀ dir b pfx env, (saveImage dir b pfx env).2.countP isMkdir = 1 ∧
        (saveImage dir b pfx env).2.countP isWrite ≤ 1) ∧
    (∀ dir b pfx env a tr, saveImage dir b pfx env = (.ok a, tr) →
        (∃ bytes, b64Decode b = some bytes ∧
          tr = [.mkdirAll (goJoin "." dir),
                .writeFile
                  (goJoin (goJoin "." dir) (pfx ++ "-" ++ env.timestamp ++ ".png"))
                  bytes]) ∧
        env.absPathRes (goJoin (goJoin "." dir) (pfx ++ "-" ++ env.timestamp ++ ".png")) =
          .ok a) ∧
    (∀ dir args env cands img txt, promptOK args = true → env.apiRes = .ok cands →
        extractFirst cands = some (img, txt) → img ≠ "" →
        (generateImage dir args env).2 =
          .apiCall [⟨promptOf args, none⟩] :: (saveImage dir img "generated" env).2 ∧
        ∀ a, (saveImage dir img "generated" env).1 = .ok a →
          (generateImage dir args env).1 =
            .ok ⟨[⟨"text",
                   "Image generated and saved to: " ++ a ++ "\n\nPrompt: " ++
                     promptOf args,
                   "", ""⟩,
                  ⟨"image", "", img, "image/png"⟩], false⟩) ∧
    (∀ dir args env cands img txt p q bytes,
        argString args "image_path" = some p → p ≠ "" →
        argString args "prompt" = some q → q ≠ "" →
        strContains (clean p) ".." = false →
        env.readFileRes (clean p) = .ok bytes →
        env.apiRes = .ok cands →
        extractFirst cands = some (img, txt) → img ≠ "" →
        (editImage dir args env).2 =
          .readFile (clean p) ::
            .apiCall [⟨"", some ⟨getMimeType (clean p), bytes⟩⟩, ⟨q, none⟩] ::
              (saveImage dir img "edited" env).2 ∧
        ∀ a, (saveImage dir img "edited" env).1 = .ok a →
          (editImage dir args env).1 =
            .ok ⟨[⟨"text",
                   "Image edited and saved to: " ++ a ++ "\n\nOriginal: " ++ p ++
                     "\nPrompt: " ++ q,
                   "", ""⟩,
                  ⟨"image", "", img, "image/png"⟩], false⟩) :=
  ⟨fun dir args env => ⟨generateImage_api_le dir args env, editImage_api_le dir args env⟩,
   fun dir args env h => generateImage_api_one dir args env h,
   fun dir args env h => editImage_api_one dir args env h,
   fun dir b pfx env =>
     ⟨(saveImage_trace dir b pfx env).2.1, (saveImage_trace dir b pfx env).2.2⟩,
   fun dir b pfx env a tr h => saveImage_ok dir b pfx env a tr h,
   fun dir args env cands img txt hok ha hx himg =>
     generateImage_success dir args env cands img txt hok ha hx himg,
   fun dir args env cands img txt p q bytes hp hpn hq hqn hcc hrf ha hx himg =>
     editImage_success dir args env cands img txt p q bytes hp hpn hq hqn hcc hrf ha hx himg⟩

/-- Witness for C6 in the cooperating world `okEnv`: both tools make exactly
one API call, the save step decodes and writes the returned bytes to the
timestamped file under the output directory, and the traces compose as the
API call followed by the save step. -/
theorem c6_one_call_then_one_save_witness :
    (generateImage "generated" [("prompt", .vstr "a cat")] okEnv).2.countP isApiCall = 1 ∧
    (editImage "generated"
        [("image_path", .vstr "img.png"), ("prompt", .vstr "x")] okEnv).2.countP
        isApiCall = 1 ∧
    ((∃ bytes, b64Decode "AQID" = some bytes ∧
        [Effect.mkdirAll "generated",
         Effect.writeFile "generated/generated-2026-01-01T00-04-05.png" [1, 2, 3]] =
          [.mkdirAll (goJoin "." "generated"),
           .writeFile
             (goJoin (goJoin "." "generated")
               ("generated" ++ "-" ++ okEnv.timestamp ++ ".png")) bytes]) ∧
      okEnv.absPathRes
          (goJoin (goJoin "." "generated")
            ("generated" ++ "-" ++ okEnv.timestamp ++ ".png")) =
        .ok "/work/generated/generated-2026-01-01T00-04-05.png") ∧
    (generateImage "generated" [("prompt", .vstr "a cat")] okEnv).2 =
      .apiCall [⟨"a cat", none⟩] ::
        (saveImage "generated" "AQID" "generated" okEnv).2 ∧
    (editImage "generated"
        [("image_path", .vstr "img.png"), ("prompt", .vstr "x")] okEnv).2 =
      .readFile (clean "img.png") ::
        .apiCall [⟨"", some ⟨getMimeType (clean "img.png"), [9, 9]⟩⟩, ⟨"x", none⟩] ::
          (saveImage "generated" "AQID" "edited" okEnv).2 :=
  ⟨c6_one_call_then_one_save.2.1 "generated" [("prompt", .vstr "a cat")] okEnv rfl,
   c6_one_call_then_one_save.2.2.1 "generated"
     [("image_path", .vstr "img.png"), ("prompt", .vstr "x")] okEnv rfl,
   c6_one_call_then_one_save.2.2.2.2.1 "generated" "AQID" "generated" okEnv
     "/work/generated/generated-2026-01-01T00-04-05.png"
     [Effect.mkdirAll "generated",
      Effect.writeFile "generated/generated-2026-01-01T00-04-05.png" [1, 2, 3]] rfl,
   (c6_one_call_then_one_save.2.2.2.2.2.1 "generated" [("prompt", .vstr "a cat")] okEnv
     [⟨⟨[⟨"", some ⟨"image/png", [1, 2, 3]⟩⟩]⟩⟩] "AQID" "" rfl rfl rfl (by decide)).1,
   (c6_one_call_then_one_save.2.2.2.2.2.2 "generated"
     [("image_path", .vstr "img.png"), ("prompt", .vstr "x")] okEnv
     [⟨⟨[⟨"", some ⟨"image/png", [1, 2, 3]⟩⟩]⟩⟩] "AQID" "" "img.png" "x" [9, 9]
     rfl (by decide) rfl (by decide) (by decide) rfl rfl rfl (by decide)).1⟩

end NanoBanana
